import Mathlib

/-!
Verification of the LangLink+ progress/leveling and streak engine
(`server.js`).  The persistent store is modelled as an association list
from email to user record; each HTTP handler becomes a function from a
store and its request fields to a result together with the store left
behind by the SQL statements it executed (error paths execute no UPDATE,
so they return the store unchanged).  Dates are modelled as integer day
numbers: `Date.toDateString` equality becomes equality of day numbers,
`reference_date - 1 day` becomes subtraction by one, and the
`Math.floor((a - b) / 86400000)` day difference of two midnight dates
becomes integer subtraction.
-/

namespace LinguaQuiz

/-- The `LANG_COLUMN_MAP` object of `server.js` (lines 43-58). -/
def LANG_COLUMN_MAP : List (String × String) :=
  [("Spanish", "progress_spanish"),
   ("French", "progress_french"),
   ("Hindi", "progress_hindi"),
   ("Kannada", "progress_kannada"),
   ("Tamil", "progress_tamil"),
   ("Telugu", "progress_telugu"),
   ("Marathi", "progress_marathi"),
   ("Malayalam", "progress_malayalam"),
   ("Bhojpuri", "progress_bhojpuri"),
   ("Rajasthani", "progress_rajasthani"),
   ("Punjabi", "progress_punjabi"),
   ("Kashmiri", "progress_kashmiri"),
   ("Urdu", "progress_urdu"),
   ("Korean", "progress_korean")]

/-- First-match association-list lookup (object property access / SQL
`SELECT ... WHERE email = ?` returning the first row). -/
def findA {α : Type} : List (String × α) → String → Option α
  | [], _ => none
  | (k, v) :: rest, k' => if k = k' then some v else findA rest k'

/-- `getProgressColumn` of `server.js` (lines 60-62): `LANG_COLUMN_MAP[lang] || null`. -/
def getProgressColumn (lang : String) : Option String :=
  findA LANG_COLUMN_MAP lang

/-- The fields of a `users` row that the core reads and writes.
`xp`/`level`/`streak` are the columns of the same name, `last_active` is
the DATE column as a day number (`none` = SQL NULL), and `progress` holds
the per-language `progress_*` columns keyed by column name (a missing key
reads as 0, matching the `|| 0` defaulting in the handlers). -/
structure UserRecord where
  xp : Nat
  level : String
  streak : Nat
  last_active : Option Int
  progress : List (String × Nat)
  deriving Repr, DecidableEq

/-- The `users` table keyed by `email`. -/
abbrev Store := List (String × UserRecord)

/-- Set the value at a key, replacing the first binding or appending. -/
def setA {α : Type} : List (String × α) → String → α → List (String × α)
  | [], k, v => [(k, v)]
  | (k', v') :: rest, k, v =>
      if k' = k then (k, v) :: rest else (k', v') :: setA rest k v

/-- SQL `UPDATE users SET ... WHERE email = ?`: apply `f` to every row
whose key is `email`, keeping the rest unchanged. -/
def updStore : Store → String → (UserRecord → UserRecord) → Store
  | [], _, _ => []
  | (k, v) :: rest, email, f =>
      if k = email then (k, f v) :: updStore rest email f
      else (k, v) :: updStore rest email f

/-- Read a per-language counter, defaulting a missing column to 0
(the `rows[0].progress || 0` pattern). -/
def getCount (u : UserRecord) (col : String) : Nat :=
  (findA u.progress col).getD 0

/-- The failure kinds the handlers surface (HTTP 404 / 400 bodies). -/
inductive Err
  | NotFound
  | UnsupportedLanguage
  | InvalidInput
  deriving Repr, DecidableEq

/-- The level-from-xp chain, identical at `server.js` lines 726-729 and
786-789: start from `'Beginner'` and overwrite by the threshold tests. -/
def levelOf (xp : Nat) : String :=
  if 100 ≤ xp ∧ xp < 300 then "Intermediate"
  else if 300 ≤ xp ∧ xp < 600 then "Advanced"
  else if 600 ≤ xp then "Expert"
  else "Beginner"

/-- Streak Policy A (`POST /api/update-streak`, lines 208-221): calendar
date-identity comparison against yesterday and today. -/
def policyA (last_active : Option Int) (streak : Nat) (today : Int) : Nat :=
  match last_active with
  | none => 1
  | some last =>
      let yesterday := today - 1
      if last = yesterday then streak + 1
      else if last ≠ today then 1
      else streak

/-- Streak Policy B (`POST /api/complete-lesson`, lines 773-783): integer
day-difference comparison. -/
def policyB (last_active : Option Int) (streak : Nat) (today : Int) : Nat :=
  match last_active with
  | none => 1
  | some lastActive =>
      let diffDays := today - lastActive
      if diffDays = 1 then streak + 1
      else if diffDays > 1 then 1
      else streak

/-- Result body of `POST /api/submit` (line 737-742). -/
structure SubmitOut where
  xp : Nat
  level : String
  lessonsCompleted : Nat
  deriving Repr, DecidableEq

/-- `POST /api/submit` (lines 706-747).  Field-presence check, then the
language check, then the user lookup; on success one UPDATE writing
`xp`, `level` and the language's progress column. -/
def submitQuiz (st : Store) (email : String) (score : Nat) (lang : String) :
    Except Err SubmitOut × Store :=
  if email = "" ∨ lang = "" then (.error .InvalidInput, st)
  else
    match getProgressColumn lang with
    | none => (.error .UnsupportedLanguage, st)
    | some progressCol =>
        let xpGain := score * 10
        match findA st email with
        | none => (.error .NotFound, st)
        | some u =>
            let currentXP := u.xp + xpGain
            let newProgress := getCount u progressCol + 1
            let level := levelOf currentXP
            (.ok ⟨currentXP, level, newProgress⟩,
             updStore st email (fun v =>
               { v with xp := currentXP, level := level,
                        progress := setA v.progress progressCol newProgress }))

/-- `POST /api/update-streak` (lines 198-229).  Email check, user lookup,
Policy A, then one UPDATE writing `streak` and `last_active = CURDATE()`. -/
def updateStreak (st : Store) (email : String) (today : Int) :
    Except Err Nat × Store :=
  if email = "" then (.error .InvalidInput, st)
  else
    match findA st email with
    | none => (.error .NotFound, st)
    | some u =>
        let newStreak := policyA u.last_active u.streak today
        (.ok newStreak,
         updStore st email (fun v =>
           { v with streak := newStreak, last_active := some today }))

/-- Result body of `POST /api/complete-lesson` (line 802). -/
structure LessonOut where
  xp : Nat
  level : String
  streak : Nat
  deriving Repr, DecidableEq

/-- The optional second UPDATE of `POST /api/complete-lesson`
(lines 795-800): `if (lang)` then, if the language has a progress column,
an in-place SQL increment `SET col = col + 1` of every matching row. -/
def bumpLang (st : Store) (email : String) (lang : Option String) : Store :=
  match lang with
  | none => st
  | some l =>
      if l = "" then st
      else
        match getProgressColumn l with
        | none => st
        | some progressCol =>
            updStore st email (fun v =>
              { v with progress := setA v.progress progressCol (getCount v progressCol + 1) })

/-- `POST /api/complete-lesson` (lines 764-807).  Email check, user
lookup, Policy B streak, xp/level recomputation, a first UPDATE writing
`xp`, `level`, `last_active = today`, `streak`, then the optional second
per-language UPDATE. -/
def completeLesson (st : Store) (email : String) (gainedXP : Nat)
    (lang : Option String) (today : Int) : Except Err LessonOut × Store :=
  if email = "" then (.error .InvalidInput, st)
  else
    match findA st email with
    | none => (.error .NotFound, st)
    | some u =>
        let streak := policyB u.last_active u.streak today
        let newXP := u.xp + gainedXP
        let newLevel := levelOf newXP
        let st1 := updStore st email (fun v =>
          { v with xp := newXP, level := newLevel,
                   last_active := some today, streak := streak })
        (.ok ⟨newXP, newLevel, streak⟩, bumpLang st1 email lang)

/-- Result body of `GET /api/progress/:email/:lang` (lines 692-697). -/
structure ProgressOut where
  xp : Nat
  level : String
  lessonsCompleted : Nat
  totalLessons : Nat
  deriving Repr, DecidableEq

/-- `GET /api/progress/:email/:lang` (lines 681-702).  Language check
first, then the user lookup; a pure read (`totalLessons = 10`). -/
def getProgress (st : Store) (email : String) (lang : String) :
    Except Err ProgressOut × Store :=
  match getProgressColumn lang with
  | none => (.error .UnsupportedLanguage, st)
  | some column =>
      match findA st email with
      | none => (.error .NotFound, st)
      | some u => (.ok ⟨u.xp, u.level, getCount u column, 10⟩, st)

/-! ### Store lemmas -/

theorem findA_updStore {st : Store} {e e' : String} {f : UserRecord → UserRecord} :
    findA (updStore st e f) e' =
      if e = e' then (findA st e').map f else findA st e' := by
  induction st with
  | nil => simp [updStore, findA]
  | cons p rest ih =>
      obtain ⟨k, v⟩ := p
      by_cases hk : k = e
      · subst hk
        by_cases hk' : k = e'
        · subst hk'
          simp [updStore, findA]
        · simp [updStore, findA, hk', ih]
      · by_cases hk' : k = e'
        · subst hk'
          have he : ¬ e = k := fun h => hk h.symm
          simp [updStore, findA, hk, he]
        · simp [updStore, findA, hk, hk', ih]

theorem findA_updStore_self {st : Store} {e : String} {f : UserRecord → UserRecord} :
    findA (updStore st e f) e = (findA st e).map f := by
  simp [findA_updStore]

theorem findA_updStore_ne {st : Store} {e e' : String} {f : UserRecord → UserRecord}
    (h : e ≠ e') : findA (updStore st e f) e' = findA st e' := by
  simp [findA_updStore, h]

theorem findA_setA {α : Type} {l : List (String × α)} {k k' : String} {v : α} :
    findA (setA l k v) k' = if k = k' then some v else findA l k' := by
  induction l with
  | nil => simp [setA, findA]
  | cons p rest ih =>
      obtain ⟨k₀, v₀⟩ := p
      by_cases h0 : k₀ = k
      · subst h0
        by_cases h1 : k₀ = k'
        · subst h1; simp [setA, findA]
        · simp [setA, findA, h1]
      · by_cases h1 : k₀ = k'
        · subst h1
          have : ¬ k = k₀ := fun h => h0 h.symm
          simp [setA, findA, h0, this]
        · simp [setA, findA, h0, h1, ih]

/-! ### Characterization lemmas for the handlers -/

theorem getProgressColumn_ne_empty {lang col : String}
    (h : getProgressColumn lang = some col) : lang ≠ "" := by
  intro he
  subst he
  have : getProgressColumn "" = none := by decide
  rw [this] at h
  exact Option.noConfusion h

theorem submitQuiz_spec {st : Store} {email : String} {score : Nat} {lang col : String}
    {u : UserRecord} (hemail : email ≠ "") (hcol : getProgressColumn lang = some col)
    (hu : findA st email = some u) :
    submitQuiz st email score lang =
      (.ok ⟨u.xp + score * 10, levelOf (u.xp + score * 10), getCount u col + 1⟩,
       updStore st email (fun v =>
         { v with xp := u.xp + score * 10, level := levelOf (u.xp + score * 10),
                  progress := setA v.progress col (getCount u col + 1) })) := by
  have hlang : lang ≠ "" := getProgressColumn_ne_empty hcol
  simp [submitQuiz, hemail, hlang, hcol, hu]

theorem updateStreak_spec {st : Store} {email : String} {today : Int}
    {u : UserRecord} (hemail : email ≠ "") (hu : findA st email = some u) :
    updateStreak st email today =
      (.ok (policyA u.last_active u.streak today),
       updStore st email (fun v =>
         { v with streak := policyA u.last_active u.streak today,
                  last_active := some today })) := by
  simp [updateStreak, hemail, hu]

theorem completeLesson_spec {st : Store} {email : String} {g : Nat}
    {lang : Option String} {today : Int} {u : UserRecord}
    (hemail : email ≠ "") (hu : findA st email = some u) :
    completeLesson st email g lang today =
      (.ok ⟨u.xp + g, levelOf (u.xp + g), policyB u.last_active u.streak today⟩,
       bumpLang
         (updStore st email (fun v =>
           { v with xp := u.xp + g, level := levelOf (u.xp + g),
                    last_active := some today,
                    streak := policyB u.last_active u.streak today }))
         email lang) := by
  simp [completeLesson, hemail, hu]

theorem getProgress_spec {st : Store} {email : String} {lang col : String}
    {u : UserRecord} (hcol : getProgressColumn lang = some col)
    (hu : findA st email = some u) :
    getProgress st email lang = (.ok ⟨u.xp, u.level, getCount u col, 10⟩, st) := by
  simp [getProgress, hcol, hu]

theorem policyA_none (s : Nat) (t : Int) : policyA none s t = 1 := rfl

theorem policyA_some (d : Int) (s : Nat) (t : Int) :
    policyA (some d) s t = if d = t - 1 then s + 1 else if d ≠ t then 1 else s := rfl

theorem policyB_none (s : Nat) (t : Int) : policyB none s t = 1 := rfl

theorem policyB_some (d : Int) (s : Nat) (t : Int) :
    policyB (some d) s t = if t - d = 1 then s + 1 else if t - d > 1 then 1 else s := rfl

theorem getCount_setA {xp : Nat} {lv : String} {sk : Nat} {la : Option Int}
    {pr : List (String × Nat)} {col c : String} {n : Nat} :
    getCount ⟨xp, lv, sk, la, setA pr col n⟩ c =
      if col = c then n else (findA pr c).getD 0 := by
  unfold getCount
  rw [show (⟨xp, lv, sk, la, setA pr col n⟩ : UserRecord).progress
        = setA pr col n from rfl, findA_setA]
  split <;> rfl

theorem bumpLang_none {st : Store} {email : String} :
    bumpLang st email none = st := rfl

theorem bumpLang_unsupported {st : Store} {email l : String}
    (h : getProgressColumn l = none) : bumpLang st email (some l) = st := by
  by_cases he : l = "" <;> simp [bumpLang, he, h]

theorem bumpLang_supported {st : Store} {email l col : String}
    (h : getProgressColumn l = some col) :
    bumpLang st email (some l) =
      updStore st email (fun v =>
        { v with progress := setA v.progress col (getCount v col + 1) }) := by
  have hl : l ≠ "" := getProgressColumn_ne_empty h
  simp [bumpLang, hl, h]

/-- The optional second UPDATE never touches `xp`, `level`, `streak` or
`last_active`. -/
theorem bumpLang_fields {st : Store} {email : String} {lang : Option String}
    {e : String} {u' : UserRecord}
    (h : findA (bumpLang st email lang) e = some u') :
    ∃ u₀, findA st e = some u₀ ∧ u'.xp = u₀.xp ∧ u'.level = u₀.level ∧
      u'.streak = u₀.streak ∧ u'.last_active = u₀.last_active := by
  match lang with
  | none => exact ⟨u', h, rfl, rfl, rfl, rfl⟩
  | some l =>
      cases hcol : getProgressColumn l with
      | none =>
          rw [bumpLang_unsupported hcol] at h
          exact ⟨u', h, rfl, rfl, rfl, rfl⟩
      | some col =>
          rw [bumpLang_supported hcol, findA_updStore] at h
          by_cases he : email = e
          · rw [if_pos he] at h
            rw [Option.map_eq_some'] at h
            obtain ⟨u₀, h₀, rfl⟩ := h
            exact ⟨u₀, h₀, rfl, rfl, rfl, rfl⟩
          · rw [if_neg he] at h
            exact ⟨u', h, rfl, rfl, rfl, rfl⟩

/-- Rows other than the targeted email are untouched by either UPDATE of
`complete-lesson`'s secondary step. -/
theorem bumpLang_other {st : Store} {email : String} {lang : Option String}
    {e : String} (he : e ≠ email) :
    findA (bumpLang st email lang) e = findA st e := by
  match lang with
  | none => rfl
  | some l =>
      cases hcol : getProgressColumn l with
      | none => rw [bumpLang_unsupported hcol]
      | some col =>
          rw [bumpLang_supported hcol, findA_updStore, if_neg (fun h => he h.symm)]

/-- The `level = levelOf xp` synchronization invariant over a store. -/
def LevelSynced (st : Store) : Prop :=
  ∀ e u, findA st e = some u → u.level = levelOf u.xp

theorem levelSynced_updStore {st : Store} {email : String}
    {f : UserRecord → UserRecord} (hst : LevelSynced st)
    (hf : ∀ v, (f v).level = levelOf (f v).xp ∨
               ((f v).level = v.level ∧ (f v).xp = v.xp)) :
    LevelSynced (updStore st email f) := by
  intro e u h
  rw [findA_updStore] at h
  by_cases he : email = e
  · rw [if_pos he, Option.map_eq_some'] at h
    obtain ⟨u₀, h₀, rfl⟩ := h
    rcases hf u₀ with h1 | ⟨h1, h2⟩
    · exact h1
    · rw [h1, h2]
      exact hst e u₀ h₀
  · rw [if_neg he] at h
    exact hst e u h

/-! ### Sample data used by the witnesses -/

def uW : UserRecord := ⟨0, "Beginner", 0, none, []⟩

def stW : Store := [("a@x", uW)]

def uW9 : UserRecord := ⟨95, "Beginner", 3, some 9, [("progress_spanish", 2)]⟩

def stW9 : Store := [("a@x", uW9)]

def uFut : UserRecord := ⟨7, "Beginner", 5, some 11, []⟩

def stFut : Store := [("a@x", uFut)]

theorem levelOf_iff (e : Nat) :
    (levelOf e = "Beginner" ↔ e < 100) ∧
    (levelOf e = "Intermediate" ↔ 100 ≤ e ∧ e < 300) ∧
    (levelOf e = "Advanced" ↔ 300 ≤ e ∧ e < 600) ∧
    (levelOf e = "Expert" ↔ 600 ≤ e) := by
  unfold levelOf
  split_ifs with h1 h2 h3 <;> simp_all <;> omega

/-! ### Claims -/

/-- Claim C1: the level derived from an experience value `e` is exactly
Beginner iff `e < 100`, Intermediate iff `100 ≤ e < 300`, Advanced iff
`300 ≤ e < 600`, Expert iff `e ≥ 600`, for every non-negative integer
`e`, including the boundaries 99/100/299/300/599/600; and both
`submit_quiz_result` and `complete_lesson` persist the level obtained by
applying this function to the new experience value. -/
theorem C1_level_thresholds :
    (∀ e : Nat,
      (levelOf e = "Beginner" ↔ e < 100) ∧
      (levelOf e = "Intermediate" ↔ 100 ≤ e ∧ e < 300) ∧
      (levelOf e = "Advanced" ↔ 300 ≤ e ∧ e < 600) ∧
      (levelOf e = "Expert" ↔ 600 ≤ e)) ∧
    (levelOf 99 = "Beginner" ∧ levelOf 100 = "Intermediate" ∧
     levelOf 299 = "Intermediate" ∧ levelOf 300 = "Advanced" ∧
     levelOf 599 = "Advanced" ∧ levelOf 600 = "Expert") ∧
    (∀ (st : Store) (email : String) (score : Nat) (lang col : String) (u : UserRecord),
      email ≠ "" → getProgressColumn lang = some col → findA st email = some u →
      ∀ u', findA (submitQuiz st email score lang).2 email = some u' →
        u'.level = levelOf (u.xp + score * 10) ∧ u'.level = levelOf u'.xp) ∧
    (∀ (st : Store) (email : String) (g : Nat) (lang : Option String) (today : Int)
        (u : UserRecord),
      email ≠ "" → findA st email = some u →
      ∀ u', findA (completeLesson st email g lang today).2 email = some u' →
        u'.level = levelOf (u.xp + g) ∧ u'.level = levelOf u'.xp) := by
  refine ⟨levelOf_iff, by decide, ?_, ?_⟩
  · intro st email score lang col u hemail hcol hu u' hu'
    rw [submitQuiz_spec hemail hcol hu] at hu'
    dsimp only at hu'
    rw [findA_updStore_self, hu, Option.map_some'] at hu'
    cases hu'
    exact ⟨rfl, rfl⟩
  · intro st email g lang today u hemail hu u' hu'
    rw [completeLesson_spec hemail hu] at hu'
    obtain ⟨u₀, h₀, hxp, hlv, -, -⟩ := bumpLang_fields hu'
    rw [findA_updStore_self, hu, Option.map_some'] at h₀
    cases h₀
    constructor
    · exact hlv
    · rw [hlv, hxp]

/-- Claim C1 witness: the threshold and persistence statements evaluated
at experience 100 and at a concrete quiz submission. -/
theorem C1_level_thresholds_witness :
    levelOf 100 = "Intermediate" ∧
    (⟨100, "Intermediate", 0, none, [("progress_spanish", 1)]⟩ : UserRecord).level
      = levelOf (uW.xp + 10 * 10) := by
  have h := C1_level_thresholds
  refine ⟨((h.1 100).2.1).mpr (by omega), ?_⟩
  exact (h.2.2.1 stW "a@x" 10 "Spanish" "progress_spanish" uW (by decide) (by decide)
    (by decide) ⟨100, "Intermediate", 0, none, [("progress_spanish", 1)]⟩ (by decide)).1

/-- Claim C2: after each core mutation (`submit_quiz_result`,
`complete_lesson`) the persisted `level` equals the pure level function
of the persisted `experience`, for every reachable record; the store
operation preserves the synchronization invariant (error paths leave the
store unchanged, success paths write `levelOf` of the new experience). -/
theorem C2_level_synced (st : Store) (hst : LevelSynced st) :
    (∀ (email : String) (score : Nat) (lang : String),
      LevelSynced (submitQuiz st email score lang).2) ∧
    (∀ (email : String) (g : Nat) (lang : Option String) (today : Int),
      LevelSynced (completeLesson st email g lang today).2) := by
  constructor
  · intro email score lang
    unfold submitQuiz
    split
    · exact hst
    · cases hcol : getProgressColumn lang with
      | none => simp only [hcol]; exact hst
      | some col =>
          simp only [hcol]
          cases hu : findA st email with
          | none => simp only [hu]; exact hst
          | some u =>
              simp only [hu]
              exact levelSynced_updStore hst (fun v => Or.inl rfl)
  · intro email g lang today
    unfold completeLesson
    split
    · exact hst
    · cases hu : findA st email with
      | none => simp only [hu]; exact hst
      | some u =>
          simp only [hu]
          have h1 : LevelSynced (updStore st email (fun v =>
              { v with xp := u.xp + g, level := levelOf (u.xp + g),
                       last_active := some today,
                       streak := policyB u.last_active u.streak today })) :=
            levelSynced_updStore hst (fun v => Or.inl rfl)
          intro e u' hu'
          obtain ⟨u₀, h₀, hxp, hlv, -, -⟩ := bumpLang_fields hu'
          rw [hlv, hxp]
          exact h1 e u₀ h₀

/-- Claim C2 witness: the invariant holds after a concrete submission and
a concrete lesson completion starting from a synchronized store. -/
theorem C2_level_synced_witness :
    LevelSynced (submitQuiz stW "a@x" 10 "Spanish").2 ∧
    LevelSynced (completeLesson stW "a@x" 20 none 10).2 := by
  have hsync : LevelSynced stW := by
    intro e u h
    by_cases he : "a@x" = e
    · simp [stW, findA, he] at h
      rw [← h]
      rfl
    · simp [stW, findA, he] at h
  exact ⟨(C2_level_synced stW hsync).1 "a@x" 10 "Spanish",
         (C2_level_synced stW hsync).2 "a@x" 20 none 10⟩

/-- Claim C3: for every existing user, supported language and
non-negative score, `submit_quiz_result` adds exactly `score × 10` to
experience, increments the language's lesson counter by exactly 1,
recomputes the level from the new experience, returns the updated
values, and leaves all other fields and counters unchanged. -/
theorem C3_submit (st : Store) (email : String) (score : Nat) (lang col : String)
    (u : UserRecord) (hemail : email ≠ "") (hcol : getProgressColumn lang = some col)
    (hu : findA st email = some u) :
    (submitQuiz st email score lang).1 =
      .ok ⟨u.xp + score * 10, levelOf (u.xp + score * 10), getCount u col + 1⟩ ∧
    ∀ u', findA (submitQuiz st email score lang).2 email = some u' →
      u'.xp = u.xp + score * 10 ∧
      u'.level = levelOf (u.xp + score * 10) ∧
      getCount u' col = getCount u col + 1 ∧
      u'.streak = u.streak ∧ u'.last_active = u.last_active ∧
      (∀ c, c ≠ col → getCount u' c = getCount u c) := by
  rw [submitQuiz_spec hemail hcol hu]
  refine ⟨rfl, ?_⟩
  intro u' hu'
  dsimp only at hu'
  rw [findA_updStore_self, hu, Option.map_some'] at hu'
  cases hu'
  refine ⟨rfl, rfl, ?_, rfl, rfl, ?_⟩
  · rw [getCount_setA, if_pos rfl]
  · intro c hc
    rw [getCount_setA, if_neg (fun h => hc h.symm)]
    rfl

/-- Claim C3 witness: the spec's end-to-end example, first step —
score 10 for Spanish from a fresh user gives experience 100,
Intermediate, 1 Spanish lesson. -/
theorem C3_submit_witness :
    (submitQuiz stW "a@x" 10 "Spanish").1 = .ok ⟨100, "Intermediate", 1⟩ := by
  have h := (C3_submit stW "a@x" 10 "Spanish" "progress_spanish" uW
    (by decide) (by decide) (by decide)).1
  simpa using h

/-- Claim C4: Streak Policy A (the standalone `update-streak` path).
Absent last-active date gives streak 1; last-active equal to the
reference date minus one day increments the streak; any other date not
equal to the reference date resets it to 1; last-active equal to the
reference date leaves it unchanged; `last_active` is always set to the
reference date. -/
theorem C4_policyA (st : Store) (email : String) (today : Int) (u : UserRecord)
    (hemail : email ≠ "") (hu : findA st email = some u) :
    (updateStreak st email today).1 = .ok (policyA u.last_active u.streak today) ∧
    (u.last_active = none → policyA u.last_active u.streak today = 1) ∧
    (∀ d, u.last_active = some d →
      (d = today - 1 → policyA u.last_active u.streak today = u.streak + 1) ∧
      (d ≠ today - 1 → d ≠ today → policyA u.last_active u.streak today = 1) ∧
      (d = today → policyA u.last_active u.streak today = u.streak)) ∧
    (∀ u', findA (updateStreak st email today).2 email = some u' →
      u' = { u with streak := policyA u.last_active u.streak today,
                    last_active := some today }) := by
  rw [updateStreak_spec hemail hu]
  refine ⟨rfl, ?_, ?_, ?_⟩
  · intro h
    rw [h]
    rfl
  · intro d hd
    rw [hd, policyA_some]
    refine ⟨?_, ?_, ?_⟩
    · intro h1
      rw [if_pos h1]
    · intro h1 h2
      rw [if_neg h1, if_pos h2]
    · intro h1
      have h2 : d ≠ today - 1 := by omega
      rw [if_neg h2, if_neg (by simpa using h1)]
  · intro u' hu'
    dsimp only at hu'
    rw [findA_updStore_self, hu, Option.map_some'] at hu'
    cases hu'
    rfl

/-- Claim C4 witness: yesterday-active user (day 9, reference day 10)
gets streak 3 + 1 = 4 and last-active day 10 persisted. -/
theorem C4_policyA_witness :
    policyA uW9.last_active uW9.streak 10 = uW9.streak + 1 ∧
    (⟨95, "Beginner", 4, some 10, [("progress_spanish", 2)]⟩ : UserRecord)
      = { uW9 with streak := policyA uW9.last_active uW9.streak 10,
                   last_active := some 10 } := by
  have h := C4_policyA stW9 "a@x" 10 uW9 (by decide) (by decide)
  refine ⟨(h.2.2.1 9 rfl).1 (by decide), ?_⟩
  exact h.2.2.2 ⟨95, "Beginner", 4, some 10, [("progress_spanish", 2)]⟩ (by decide)

/-- Claim C5: Streak Policy B (inside `complete-lesson`).  Absent
last-active date gives streak 1; with `diff = reference − last_active` in
whole days, `diff = 1` increments, `diff > 1` resets to 1, `diff ≤ 0`
leaves the streak unchanged; `last_active` is always persisted as the
reference date. -/
theorem C5_policyB (st : Store) (email : String) (g : Nat) (lang : Option String)
    (today : Int) (u : UserRecord)
    (hemail : email ≠ "") (hu : findA st email = some u) :
    (completeLesson st email g lang today).1 =
      .ok ⟨u.xp + g, levelOf (u.xp + g), policyB u.last_active u.streak today⟩ ∧
    (u.last_active = none → policyB u.last_active u.streak today = 1) ∧
    (∀ d, u.last_active = some d →
      (today - d = 1 → policyB u.last_active u.streak today = u.streak + 1) ∧
      (today - d > 1 → policyB u.last_active u.streak today = 1) ∧
      (today - d ≤ 0 → policyB u.last_active u.streak today = u.streak)) ∧
    (∀ u', findA (completeLesson st email g lang today).2 email = some u' →
      u'.streak = policyB u.last_active u.streak today ∧
      u'.last_active = some today) := by
  rw [completeLesson_spec hemail hu]
  refine ⟨rfl, ?_, ?_, ?_⟩
  · intro h
    rw [h]
    rfl
  · intro d hd
    rw [hd, policyB_some]
    refine ⟨?_, ?_, ?_⟩
    · intro h1
      rw [if_pos h1]
    · intro h1
      rw [if_neg (by omega), if_pos h1]
    · intro h1
      rw [if_neg (by omega), if_neg (by omega)]
  · intro u' hu'
    dsimp only at hu'
    obtain ⟨u₀, h₀, -, -, hsk, hla⟩ := bumpLang_fields hu'
    rw [findA_updStore_self, hu, Option.map_some'] at h₀
    cases h₀
    exact ⟨hsk, hla⟩

/-- Claim C5 witness: a lesson completed with last-active day 9 at
reference day 10 increments the streak and persists day 10. -/
theorem C5_policyB_witness :
    policyB uW9.last_active uW9.streak 10 = uW9.streak + 1 ∧
    (⟨115, "Intermediate", 4, some 10, [("progress_spanish", 2)]⟩ : UserRecord).streak
        = policyB uW9.last_active uW9.streak 10 ∧
    (⟨115, "Intermediate", 4, some 10, [("progress_spanish", 2)]⟩ : UserRecord).last_active
        = some 10 := by
  have h := C5_policyB stW9 "a@x" 20 none 10 uW9 (by decide) (by decide)
  refine ⟨(h.2.2.1 9 rfl).1 (by decide), ?_⟩
  exact h.2.2.2 ⟨115, "Intermediate", 4, some 10, [("progress_spanish", 2)]⟩ (by decide)

/-- Claim C6: `complete_lesson` succeeds for every existing user
regardless of the language argument; with no language or an unsupported
language every per-language counter is unchanged; with a supported
language exactly that counter is incremented by 1. -/
theorem C6_complete_lesson_language (st : Store) (email : String) (g : Nat)
    (lang : Option String) (today : Int) (u : UserRecord)
    (hemail : email ≠ "") (hu : findA st email = some u) :
    (completeLesson st email g lang today).1 =
      .ok ⟨u.xp + g, levelOf (u.xp + g), policyB u.last_active u.streak today⟩ ∧
    (∀ u', findA (completeLesson st email g none today).2 email = some u' →
        u'.progress = u.progress) ∧
    (∀ l, getProgressColumn l = none →
      ∀ u', findA (completeLesson st email g (some l) today).2 email = some u' →
        u'.progress = u.progress) ∧
    (∀ l col, getProgressColumn l = some col →
      ∀ u', findA (completeLesson st email g (some l) today).2 email = some u' →
        getCount u' col = getCount u col + 1 ∧
        (∀ c, c ≠ col → getCount u' c = getCount u c)) := by
  refine ⟨?_, ?_, ?_, ?_⟩
  · rw [completeLesson_spec hemail hu]
  · intro u' hu'
    rw [completeLesson_spec hemail hu] at hu'
    dsimp only at hu'
    rw [bumpLang_none, findA_updStore_self, hu, Option.map_some'] at hu'
    cases hu'
    rfl
  · intro l hl u' hu'
    rw [completeLesson_spec hemail hu] at hu'
    dsimp only at hu'
    rw [bumpLang_unsupported hl, findA_updStore_self, hu, Option.map_some'] at hu'
    cases hu'
    rfl
  · intro l col hl u' hu'
    rw [completeLesson_spec hemail hu] at hu'
    dsimp only at hu'
    rw [bumpLang_supported hl, findA_updStore_self, findA_updStore_self, hu,
        Option.map_some', Option.map_some'] at hu'
    cases hu'
    constructor
    · rw [getCount_setA, if_pos rfl]
      rfl
    · intro c hc
      rw [getCount_setA, if_neg (fun h => hc h.symm)]
      rfl

/-- Claim C6 witness: completing a lesson with the unsupported language
"Klingon" still succeeds and leaves the Spanish counter unchanged. -/
theorem C6_complete_lesson_language_witness :
    (completeLesson stW9 "a@x" 20 (some "Klingon") 10).1 =
      .ok ⟨115, "Intermediate", 4⟩ ∧
    (⟨115, "Intermediate", 4, some 10, [("progress_spanish", 2)]⟩ : UserRecord).progress
      = uW9.progress := by
  have h := C6_complete_lesson_language stW9 "a@x" 20 (some "Klingon") 10 uW9
    (by decide) (by decide)
  refine ⟨by simpa using h.1, ?_⟩
  exact h.2.2.1 "Klingon" (by decide)
    ⟨115, "Intermediate", 4, some 10, [("progress_spanish", 2)]⟩ (by decide)

/-- Claim C7 counterexample: with stored `last_active` = day 11 and
reference date day 10, the standalone streak update persists day 10 — a
`last_active` strictly earlier than the one already stored.  The claim
that no operation ever writes an earlier `last_active`, including when
the stored date lies in the future, is therefore false. -/
theorem C7_counterexample :
    uFut.last_active = some 11 ∧
    findA (updateStreak stFut "a@x" 10).2 "a@x"
      = some ⟨7, "Beginner", 1, some 10, []⟩ ∧
    ((10 : Int) < 11) := by
  decide

/-- Claim C7 amended: every streak-writing operation persists
`last_active` equal to exactly its reference date; consequently
`last_active` never regresses provided the stored date does not exceed
the reference date (a stored future date is instead pulled back to the
reference date, as the counterexample shows). -/
theorem C7_amended (st : Store) (email : String) (today : Int) (g : Nat)
    (lang : Option String) (u : UserRecord)
    (hemail : email ≠ "") (hu : findA st email = some u) :
    (∀ u', findA (updateStreak st email today).2 email = some u' →
       u'.last_active = some today ∧
       (∀ d e, u.last_active = some d → d ≤ today →
          u'.last_active = some e → d ≤ e)) ∧
    (∀ u', findA (completeLesson st email g lang today).2 email = some u' →
       u'.last_active = some today ∧
       (∀ d e, u.last_active = some d → d ≤ today →
          u'.last_active = some e → d ≤ e)) := by
  constructor
  · intro u' hu'
    rw [updateStreak_spec hemail hu] at hu'
    dsimp only at hu'
    rw [findA_updStore_self, hu, Option.map_some'] at hu'
    cases hu'
    refine ⟨rfl, ?_⟩
    intro d e _ hdt he
    injection he with he'
    omega
  · intro u' hu'
    rw [completeLesson_spec hemail hu] at hu'
    dsimp only at hu'
    obtain ⟨u₀, h₀, -, -, -, hla⟩ := bumpLang_fields hu'
    rw [findA_updStore_self, hu, Option.map_some'] at h₀
    cases h₀
    rw [hla]
    refine ⟨rfl, ?_⟩
    intro d e _ hdt he
    have he2 : (some today : Option Int) = some e := he
    injection he2 with he3
    omega

/-- Claim C7 amended witness: a stored day 9 not exceeding reference day
10 is moved forward to day 10 by the standalone streak update. -/
theorem C7_amended_witness :
    (⟨95, "Beginner", 4, some 10, [("progress_spanish", 2)]⟩ : UserRecord).last_active
      = some 10 ∧ (9 : Int) ≤ 10 := by
  have h := C7_amended stW9 "a@x" 10 20 none uW9 (by decide) (by decide)
  have h1 := h.1 ⟨95, "Beginner", 4, some 10, [("progress_spanish", 2)]⟩ (by decide)
  exact ⟨h1.1, h1.2 9 10 rfl (by decide) h1.1⟩

/-- Claim C8: when the email references no record, each operation fails
with NotFound and leaves the store — hence every field of every record —
unchanged. -/
theorem C8_not_found (st : Store) (email : String) (score g : Nat)
    (lang col : String) (langO : Option String) (today : Int)
    (hemail : email ≠ "") (hcol : getProgressColumn lang = some col)
    (hnone : findA st email = none) :
    submitQuiz st email score lang = (.error .NotFound, st) ∧
    completeLesson st email g langO today = (.error .NotFound, st) ∧
    updateStreak st email today = (.error .NotFound, st) ∧
    getProgress st email lang = (.error .NotFound, st) := by
  have hlang : lang ≠ "" := getProgressColumn_ne_empty hcol
  refine ⟨?_, ?_, ?_, ?_⟩
  · simp [submitQuiz, hemail, hlang, hcol, hnone]
  · simp [completeLesson, hemail, hnone]
  · simp [updateStreak, hemail, hnone]
  · simp [getProgress, hcol, hnone]

/-- Claim C8 witness: the four operations against an email absent from
the store all answer NotFound and return the store unchanged. -/
theorem C8_not_found_witness :
    submitQuiz stW "b@y" 5 "Spanish" = (.error .NotFound, stW) ∧
    completeLesson stW "b@y" 20 none 10 = (.error .NotFound, stW) ∧
    updateStreak stW "b@y" 10 = (.error .NotFound, stW) ∧
    getProgress stW "b@y" "Spanish" = (.error .NotFound, stW) :=
  C8_not_found stW "b@y" 5 20 "Spanish" "progress_spanish" none 10
    (by decide) (by decide) (by decide)

/-- Claim C9: for an existing user and supported language,
`get_progress` returns the stored experience and level, the
per-language count (0 when the counter is absent), and the constant
`total_lessons = 10`, leaving the store unchanged. -/
theorem C9_get_progress (st : Store) (email lang col : String) (u : UserRecord)
    (hcol : getProgressColumn lang = some col) (hu : findA st email = some u) :
    getProgress st email lang = (.ok ⟨u.xp, u.level, getCount u col, 10⟩, st) ∧
    (findA u.progress col = none → getCount u col = 0) := by
  refine ⟨getProgress_spec hcol hu, ?_⟩
  intro h
  unfold getCount
  rw [h]
  rfl

/-- Claim C9 witness: the spec's zero-completion case — a fresh user
queried for French gets 0 of 10 lessons and the stored xp and level. -/
theorem C9_get_progress_witness :
    getProgress stW "a@x" "French" = (.ok ⟨0, "Beginner", 0, 10⟩, stW) := by
  have h := C9_get_progress stW "a@x" "French" "progress_french" uW
    (by decide) (by decide)
  exact h.1

/-- Claim C10: in `submit_quiz_result` and `get_progress` the
supported-language check precedes the user lookup: with an unsupported
language both fail with UnsupportedLanguage for every store — in
particular also when the user does not exist — and the store is
unchanged. -/
theorem C10_language_first (st : Store) (email : String) (score : Nat)
    (lang : String) (hemail : email ≠ "") (hlang : lang ≠ "")
    (hcol : getProgressColumn lang = none) :
    submitQuiz st email score lang = (.error .UnsupportedLanguage, st) ∧
    getProgress st email lang = (.error .UnsupportedLanguage, st) := by
  constructor
  · simp [submitQuiz, hemail, hlang, hcol]
  · simp [getProgress, hcol]

/-- Claim C10 witness: against an empty store (the user certainly does
not exist), an unsupported language yields UnsupportedLanguage from both
operations. -/
theorem C10_language_first_witness :
    submitQuiz [] "ghost@x" 5 "Klingon" = (.error .UnsupportedLanguage, []) ∧
    getProgress [] "ghost@x" "Klingon" = (.error .UnsupportedLanguage, []) :=
  C10_language_first [] "ghost@x" 5 "Klingon" (by decide) (by decide) (by decide)

end LinguaQuiz
